import Mathlib

/-
Verification of the TS-404 synthesizer core: voice manager (two
implementations, WebAudioSynthesizer.ts and ToneSynthesizer.ts), the
zustand store sequencer pattern operations (store.ts) and the App-level
sequencer clock (App.tsx).  JavaScript Map/Set containers are embedded as
insertion-ordered association lists; timers (setTimeout/setInterval) are
embedded as explicit pending-action lists paired with their delay in
milliseconds; Web Audio parameter automation is embedded as explicit event
lists.  Frequencies are kept generic in a field F supplied together with
the midi-to-frequency conversion, so that the state machines stay
executable; the real-valued conversion itself is verified separately.
-/

namespace JsMap

/-- JS Map.set: replace the entry for the key if present (a JS map holds at
most one entry per key), otherwise append at the end (insertion order). -/
def mapSet {α : Type} : List (Nat × α) → Nat → α → List (Nat × α)
  | [], k, v => [(k, v)]
  | p :: rest, k, v => if p.1 == k then (k, v) :: rest else p :: mapSet rest k v

/-- JS Map.get, returning none when the key is absent. -/
def mapGet {α : Type} : List (Nat × α) → Nat → Option α
  | [], _ => none
  | p :: rest, k => if p.1 == k then some p.2 else mapGet rest k

/-- JS Map.delete. -/
def mapDelete {α : Type} : List (Nat × α) → Nat → List (Nat × α)
  | [], _ => []
  | p :: rest, k => if p.1 == k then mapDelete rest k else p :: mapDelete rest k

/-- Number of entries stored under a key (a well-formed JS map has at most one). -/
def mapCount {α : Type} : List (Nat × α) → Nat → Nat
  | [], _ => 0
  | p :: rest, k => (if p.1 == k then 1 else 0) + mapCount rest k

/-- JS Set.has. -/
def setHas : List Nat → Nat → Bool
  | [], _ => false
  | x :: rest, k => if x == k then true else setHas rest k

/-- JS Set.add (appends in insertion order when absent). -/
def setAdd (s : List Nat) (k : Nat) : List Nat :=
  if setHas s k then s else s ++ [k]

/-- JS Set.delete. -/
def setDelete : List Nat → Nat → List Nat
  | [], _ => []
  | x :: rest, k => if x == k then setDelete rest k else x :: setDelete rest k

end JsMap

open JsMap

/-- Oscillator waveforms (OscillatorType in both SynthesizerParams interfaces). -/
inductive OscType
  | sine
  | triangle
  | sawtooth
  | square
deriving DecidableEq

/-- Filter kinds (BiquadFilterType as used by the params). -/
inductive FilterType
  | lowpass
  | highpass
  | bandpass
  | notch
deriving DecidableEq

/-- SynthesizerParams, the full parameter snapshot shared by both
synthesizer implementations (identical field lists). -/
structure SynthesizerParams where
  oscillatorType : OscType
  frequency : ℚ
  volume : ℚ
  attack : ℚ
  decay : ℚ
  sustain : ℚ
  release : ℚ
  cutoff : ℚ
  resonance : ℚ
  filterType : FilterType
  lfoRate : ℚ
  lfoAmount : ℚ
  detuneAmount : ℚ
  ringModAmount : ℚ
  wetness : ℚ
  coarseness : ℚ
deriving DecidableEq

/-- Constructor defaults of both synthesizer classes (identical literals). -/
def defaultParams : SynthesizerParams where
  oscillatorType := OscType.square
  frequency := 440
  volume := 3/10
  attack := 1/10
  decay := 2/10
  sustain := 1/2
  release := 3/10
  cutoff := 4000
  resonance := 1
  filterType := FilterType.lowpass
  lfoRate := 5
  lfoAmount := 0
  detuneAmount := 0
  ringModAmount := 0
  wetness := 3/10
  coarseness := 1/2

/-- Web Audio AudioParam automation calls, recorded as events.  The value
type is a parameter so that gain automation can use rationals while
frequency automation uses the generic frequency field.
setCurrentValueAtTime t stands for setValueAtTime(param.value, t): the
call that captures the instantaneous value at time t. -/
inductive AudioEvent (α : Type) : Type
  | setValueAtTime (v : α) (t : ℚ)
  | linearRampToValueAtTime (v : α) (t : ℚ)
  | cancelScheduledValues (t : ℚ)
  | setCurrentValueAtTime (t : ℚ)
deriving DecidableEq

/-- SequencerNote from store.ts. -/
structure SequencerNote where
  note : Nat
  velocity : ℚ
  duration : ℚ
  slide : Bool
  enabled : Bool
deriving DecidableEq

/-- midiNoteToFrequency from both synthesizer files:
440 * Math.pow(2, (noteNumber - 69) / 12), over the reals. -/
noncomputable def midiNoteToFrequency (noteNumber : ℤ) : ℝ :=
  440 * (2 : ℝ) ^ (((noteNumber : ℝ) - 69) / 12)

/-- frequencyToMidiNote from both synthesizer files:
Math.round(69 + 12 * Math.log2(frequency / 440)); Math.round rounds
half-up, as does Int.round. -/
noncomputable def frequencyToMidiNote (frequency : ℝ) : ℤ :=
  round (69 + 12 * Real.logb 2 (frequency / 440))

namespace ToneSynth

/-
Embedding of src/synthesizer/ToneSynthesizer.ts (the implementation App.tsx
imports).  F is the frequency carrier together with the conversion mtf,
standing for this.midiNoteToFrequency.
-/

/-- A Tone.Synth as configured in noteOn: oscillator type, ADSR envelope,
its frequency value (synth.frequency.value = frequency, a direct
assignment, not a ramp), and the times at which triggerAttack and
triggerRelease were called. -/
structure SynthNode (F : Type) where
  oscType : OscType
  attack : ℚ
  decay : ℚ
  sustain : ℚ
  release : ℚ
  frequencyValue : F
  attackAt : Option ℚ
  releaseAt : Option ℚ
deriving DecidableEq

/-- A Tone.Filter as configured in noteOn. -/
structure TFilter where
  frequencyValue : ℚ
  filterType : FilterType
  qValue : ℚ
deriving DecidableEq

/-- A Tone.LFO.  The voice stores either the LFO built in the
lfoAmount > 0 branch (isDefault = false, frequency = lfoRate,
min = 0.95 * frequency, max = 1.05 * frequency, connected to
synth.frequency and started) or the bare fallback new Tone.LFO() stored by
voices.set (isDefault = true, nothing configured, not connected, not
started). -/
structure TLfo (F : Type) where
  isDefault : Bool
  frequencyValue : Option ℚ
  minValue : Option F
  maxValue : Option F
  connectedToFrequency : Bool
  started : Bool
  stopped : Bool
deriving DecidableEq

/-- VoiceNode from ToneSynthesizer.ts. -/
structure VoiceNode (F : Type) where
  synth : SynthNode F
  filter : TFilter
  lfo : TLfo F
deriving DecidableEq

/-- The two kinds of setTimeout callbacks the class registers: the
noteOff disposal of one captured voice, and the stopAllNotes callback that
disposes every voice still in the map and then clears the map and the
active-note set. -/
inductive ToneTimer (F : Type) : Type
  | disposeVoice (v : VoiceNode F)
  | stopAllCleanup
deriving DecidableEq

/-- Mutable state of the ToneSynthesizer class.  pending pairs each
registered setTimeout with its delay in milliseconds; disposed records
voices whose dispose calls have run. -/
structure ToneState (F : Type) where
  voices : List (Nat × VoiceNode F)
  masterGainValue : ℚ
  params : SynthesizerParams
  activeNotes : List Nat
  now : ℚ
  pending : List (ℚ × ToneTimer F)
  disposed : List (VoiceNode F)
deriving DecidableEq

/-- Constructor state: new Tone.Gain(0.35) routed to the destination,
default params, empty maps. -/
def initState (F : Type) : ToneState F where
  voices := []
  masterGainValue := 35/100
  params := defaultParams
  activeNotes := []
  now := 0
  pending := []
  disposed := []

/-- noteOff: a no-op when the note has no live voice; otherwise
triggerRelease now, stop the LFO, schedule disposal of the captured voice
after release * 1000 + 100 ms, and delete the note from the voice map and
the active-note set before returning. -/
def noteOff {F : Type} (s : ToneState F) (noteNumber : Nat) : ToneState F :=
  match mapGet s.voices noteNumber with
  | none => s
  | some voice =>
      let released : VoiceNode F :=
        { voice with
            synth := { voice.synth with releaseAt := some s.now }
            lfo := { voice.lfo with stopped := true } }
      { s with
          voices := mapDelete s.voices noteNumber
          activeNotes := setDelete s.activeNotes noteNumber
          pending :=
            s.pending ++
              [(s.params.release * 1000 + 100, ToneTimer.disposeVoice released)] }

/-- noteOn: forces noteOff first when the note is already active, then
builds a fresh synth, filter and (for lfoAmount > 0) LFO, triggers the
attack and registers the voice.  The velocity and slideTime arguments are
declared but unused by this implementation. -/
def noteOn {F : Type} [Field F] (mtf : Nat → F) (s0 : ToneState F)
    (noteNumber : Nat) (_velocity _slideTime : ℚ) : ToneState F :=
  let s := if setHas s0.activeNotes noteNumber then noteOff s0 noteNumber else s0
  let frequency : F := mtf noteNumber
  let synth : SynthNode F :=
    { oscType := s.params.oscillatorType
      attack := s.params.attack
      decay := s.params.decay
      sustain := s.params.sustain
      release := s.params.release
      frequencyValue := frequency
      attackAt := some s.now
      releaseAt := none }
  let filter : TFilter :=
    { frequencyValue := s.params.cutoff
      filterType := s.params.filterType
      qValue := s.params.resonance }
  let lfo : TLfo F :=
    if s.params.lfoAmount > 0 then
      { isDefault := false
        frequencyValue := some s.params.lfoRate
        minValue := some (frequency * (19/20))
        maxValue := some (frequency * (21/20))
        connectedToFrequency := true
        started := true
        stopped := false }
    else
      { isDefault := true
        frequencyValue := none
        minValue := none
        maxValue := none
        connectedToFrequency := false
        started := false
        stopped := false }
  { s with
      voices := mapSet s.voices noteNumber ⟨synth, filter, lfo⟩
      activeNotes := setAdd s.activeNotes noteNumber }

/-- stopAllNotes: triggerRelease and lfo.stop on every live voice, then a
single setTimeout after release * 1000 + 100 ms whose callback disposes
every voice and clears the voice map and the active-note set.  Neither map
nor set is cleared before the callback fires. -/
def stopAllNotes {F : Type} (s : ToneState F) : ToneState F :=
  { s with
      voices :=
        s.voices.map fun p =>
          (p.1,
            { p.2 with
                synth := { p.2.synth with releaseAt := some s.now }
                lfo := { p.2.lfo with stopped := true } })
      pending :=
        s.pending ++ [(s.params.release * 1000 + 100, ToneTimer.stopAllCleanup)] }

/-- Semantics of a registered setTimeout callback firing. -/
def fireTimer {F : Type} (s : ToneState F) (t : ToneTimer F) : ToneState F :=
  match t with
  | ToneTimer.disposeVoice v => { s with disposed := s.disposed ++ [v] }
  | ToneTimer.stopAllCleanup =>
      { s with
          disposed := s.disposed ++ s.voices.map (fun p => p.2)
          voices := []
          activeNotes := [] }

end ToneSynth

namespace WebAudio

/-
Embedding of src/synthesizer/WebAudioSynthesizer.ts.  Each Web Audio node
created by noteOn is a record; connect calls are logged per note so that
graph topology is observable.
-/

/-- An OscillatorNode: waveform, the automation events issued on its
frequency AudioParam, the detune value, whether start() ran, and the time
passed to stop() when scheduled. -/
structure OscNode (F : Type) where
  oscType : OscType
  freqEvents : List (AudioEvent F)
  detuneValue : ℚ
  started : Bool
  stopAt : Option ℚ
deriving DecidableEq

/-- A GainNode holding its gain automation events. -/
structure GainNodeRec where
  events : List (AudioEvent ℚ)
deriving DecidableEq

/-- A BiquadFilterNode as configured in noteOn. -/
structure FilterNode where
  filterType : FilterType
  frequencyValue : ℚ
  qValue : ℚ
deriving DecidableEq

/-- The LFO sub-graph: the LFO oscillator frequency (lfoRate), the lfoGain
gain value (lfoAmount * 100) feeding osc.frequency, and whether the LFO
was started. -/
structure LfoGraph where
  lfoFrequencyValue : ℚ
  lfoGainValue : ℚ
  started : Bool
deriving DecidableEq

/-- The ring-mod carrier oscillator (sine at 1.5 * frequency). -/
structure RingOsc (F : Type) where
  frequencyValue : F
  oscType : OscType
  started : Bool
deriving DecidableEq

/-- One of the two gain nodes tracked in ringModGainsList
(ringModGain with the clamped amount, ringModCarrier with default gain 1). -/
structure RingGain where
  gainValue : ℚ
deriving DecidableEq

/-- Connect calls noteOn can issue, by their endpoints. -/
inductive Conn
  | oscToFilter
  | ringOscToRingGain
  | ringGainToCarrierGain
  | ringCarrierToFilter
  | lfoToLfoGain
  | lfoGainToOscFrequency
  | filterToGain
  | gainToMaster
deriving DecidableEq, BEq

/-- The only setTimeout callback this class registers: the noteOff cleanup
that deletes the note from the oscillator, gain and filter maps and from
the active-note set. -/
inductive WATimer
  | cleanupNote (note : Nat)
deriving DecidableEq

/-- Mutable state of the WebAudioSynthesizer class; connLog records, per
note, the connect calls of the most recent noteOn for that note. -/
structure WAState (F : Type) where
  oscillators : List (Nat × OscNode F)
  gains : List (Nat × GainNodeRec)
  filters : List (Nat × FilterNode)
  lfos : List (Nat × LfoGraph)
  ringModOscillators : List (Nat × RingOsc F)
  ringModGains : List (Nat × List RingGain)
  connLog : List (Nat × List Conn)
  masterGainValue : ℚ
  params : SynthesizerParams
  activeNotes : List Nat
  now : ℚ
  pending : List (ℚ × WATimer)
deriving DecidableEq

/-- Constructor state: empty maps, a master gain (createGain default 1)
connected to the destination, default params. -/
def initState (F : Type) : WAState F where
  oscillators := []
  gains := []
  filters := []
  lfos := []
  ringModOscillators := []
  ringModGains := []
  connLog := []
  masterGainValue := 1
  params := defaultParams
  activeNotes := []
  now := 0
  pending := []

/-- noteOff: when both gain and oscillator exist, cancel the scheduled gain
automation, capture the instantaneous gain value, ramp to 0 over release
seconds and schedule osc.stop(now + release); when an LFO exists, stop it
and delete it from the map.  In every case a setTimeout is registered
whose callback deletes the note from the oscillator, gain and filter maps
and from the active-note set after release * 1000 + 100 ms; none of those
removals happen before that callback fires. -/
def noteOff {F : Type} (s : WAState F) (noteNumber : Nat) : WAState F :=
  let s1 :=
    match mapGet s.gains noteNumber, mapGet s.oscillators noteNumber with
    | some g, some o =>
        let now := s.now
        let g2 : GainNodeRec :=
          ⟨g.events ++
            [AudioEvent.cancelScheduledValues now,
             AudioEvent.setCurrentValueAtTime now,
             AudioEvent.linearRampToValueAtTime 0 (now + s.params.release)]⟩
        let o2 : OscNode F := { o with stopAt := some (now + s.params.release) }
        { s with
            gains := mapSet s.gains noteNumber g2
            oscillators := mapSet s.oscillators noteNumber o2 }
    | _, _ => s
  let s2 :=
    match mapGet s1.lfos noteNumber with
    | some _ => { s1 with lfos := mapDelete s1.lfos noteNumber }
    | none => s1
  { s2 with
      pending :=
        s2.pending ++
          [(s.params.release * 1000 + 100, WATimer.cleanupNote noteNumber)] }

/-- noteOn, translated clause by clause from the source: implicit noteOff
on retrigger; oscillator with either an immediate setValueAtTime of the
target frequency or, for slideTime > 0, a setValueAtTime of the slide
source (highest active note if any, else half the target) followed by a
linear ramp to the target at now + slideTime; detune; filter; ADSR gain
events; ring-mod sub-graph exactly when 0 < ringModAmount < 1 (carrier at
1.5 * frequency, gain clamped to [0, 1/2] from ringModAmount * 1/2); LFO
sub-graph exactly when lfoAmount > 0 (rate lfoRate, gain lfoAmount * 100);
then the final connects, including a second osc-to-filter connect whenever
no ring-mod oscillator was built. -/
def noteOn {F : Type} [Field F] (mtf : Nat → F) (s0 : WAState F)
    (noteNumber : Nat) (velocity slideTime : ℚ) : WAState F :=
  let s := if setHas s0.activeNotes noteNumber then noteOff s0 noteNumber else s0
  let frequency : F := mtf noteNumber
  let now := s.now
  let freqEvents : List (AudioEvent F) :=
    if slideTime > 0 then
      let lastFrequency : F :=
        if s.activeNotes.length > 0 then mtf (s.activeNotes.foldr max 0)
        else frequency * (1/2)
      [AudioEvent.setValueAtTime lastFrequency now,
       AudioEvent.linearRampToValueAtTime frequency (now + slideTime)]
    else
      [AudioEvent.setValueAtTime frequency now]
  let detuneValue : ℚ := if s.params.detuneAmount ≠ 0 then s.params.detuneAmount else 0
  let filter : FilterNode :=
    { filterType := s.params.filterType
      frequencyValue := s.params.cutoff
      qValue := s.params.resonance }
  let gainNode : GainNodeRec :=
    ⟨[AudioEvent.setValueAtTime 0 now,
      AudioEvent.linearRampToValueAtTime (velocity * s.params.volume)
        (now + s.params.attack),
      AudioEvent.linearRampToValueAtTime
        (s.params.sustain * velocity * s.params.volume)
        (now + s.params.attack + s.params.decay)]⟩
  let ringInfo : Option (RingOsc F × List RingGain) × List Conn :=
    if s.params.ringModAmount > 0 ∧ s.params.ringModAmount < 1 then
      let ringModOsc : RingOsc F :=
        { frequencyValue := frequency * (3/2), oscType := OscType.sine, started := true }
      let ringModAmountClamped : ℚ :=
        max 0 (min (1/2) (s.params.ringModAmount * (1/2)))
      let ringModGain : RingGain := ⟨ringModAmountClamped⟩
      let ringModCarrier : RingGain := ⟨1⟩
      (some (ringModOsc, [ringModGain, ringModCarrier]),
       [Conn.ringOscToRingGain, Conn.ringGainToCarrierGain,
        Conn.oscToFilter, Conn.ringCarrierToFilter])
    else
      (none, [Conn.oscToFilter])
  let lfoInfo : Option LfoGraph × List Conn :=
    if s.params.lfoAmount > 0 then
      (some
        { lfoFrequencyValue := s.params.lfoRate
          lfoGainValue := s.params.lfoAmount * 100
          started := true },
       [Conn.lfoToLfoGain, Conn.lfoGainToOscFrequency])
    else (none, [])
  let connectTail : List Conn :=
    (if ringInfo.1.isNone then [Conn.oscToFilter] else []) ++
      [Conn.filterToGain, Conn.gainToMaster]
  let osc : OscNode F :=
    { oscType := s.params.oscillatorType
      freqEvents := freqEvents
      detuneValue := detuneValue
      started := true
      stopAt := none }
  let s1 :=
    { s with
        oscillators := mapSet s.oscillators noteNumber osc
        gains := mapSet s.gains noteNumber gainNode
        filters := mapSet s.filters noteNumber filter
        lfos :=
          match lfoInfo.1 with
          | some l => mapSet s.lfos noteNumber l
          | none => s.lfos
        connLog := mapSet s.connLog noteNumber (ringInfo.2 ++ lfoInfo.2 ++ connectTail) }
  let s2 :=
    match ringInfo.1 with
    | some rp =>
        { s1 with
            ringModOscillators := mapSet s1.ringModOscillators noteNumber rp.1
            ringModGains := mapSet s1.ringModGains noteNumber rp.2 }
    | none => s1
  { s2 with activeNotes := setAdd s2.activeNotes noteNumber }

/-- getActiveNotes: Array.from of the active-note set. -/
def getActiveNotes {F : Type} (s : WAState F) : List Nat :=
  s.activeNotes

/-- stopAllNotes: stops every oscillator, ring-mod oscillator and LFO and
mutes every gain (calls that only touch nodes discarded from every map in
the same call), then clears all six tracking maps and the active-note set
synchronously.  No timer is registered and none is cancelled. -/
def stopAllNotes {F : Type} (s : WAState F) : WAState F :=
  { s with
      oscillators := []
      gains := []
      filters := []
      lfos := []
      ringModOscillators := []
      ringModGains := []
      activeNotes := [] }

/-- Semantics of the noteOff setTimeout callback firing. -/
def fireTimer {F : Type} (s : WAState F) (t : WATimer) : WAState F :=
  match t with
  | WATimer.cleanupNote n =>
      { s with
          oscillators := mapDelete s.oscillators n
          gains := mapDelete s.gains n
          filters := mapDelete s.filters n
          activeNotes := setDelete s.activeNotes n }

end WebAudio

namespace Store

/-
Embedding of the sequencer-pattern part of src/synthesizer/store.ts: the
preset table, the random-sequence helper and the store actions that
rewrite sequencerSteps.  A JS array cell can be a hole (undefined) after
an out-of-range indexed write, so the stored pattern is a list of
optional steps; every step the store itself writes is present.
-/

/-- PresetDefinition from store.ts (the display name is omitted as pure
UI data). -/
structure PresetDefinition where
  params : SynthesizerParams
  tempo : ℚ
  sequencerSteps : List SequencerNote

/-- The acidTechno preset. -/
def acidTechno : PresetDefinition where
  params :=
    { oscillatorType := OscType.sawtooth, frequency := 440, volume := 0.32
      attack := 0.005, decay := 0.15, sustain := 0.25, release := 0.12
      cutoff := 1300, resonance := 10, filterType := FilterType.lowpass
      lfoRate := 3.8, lfoAmount := 0.25, detuneAmount := 0.08
      ringModAmount := 0, wetness := 0.25, coarseness := 0.6 }
  tempo := 125
  sequencerSteps :=
    [⟨36, 0.92, 0.8, false, true⟩, ⟨36, 0.85, 0.5, false, true⟩,
     ⟨40, 0.92, 0.8, true, true⟩, ⟨43, 0.92, 0.8, false, true⟩,
     ⟨41, 0.92, 0.8, true, true⟩, ⟨38, 0.92, 0.6, false, true⟩,
     ⟨0, 0.92, 0.5, false, false⟩, ⟨38, 0.92, 0.8, true, true⟩,
     ⟨43, 0.92, 0.8, false, true⟩, ⟨41, 0.92, 0.8, true, true⟩,
     ⟨39, 0.88, 0.6, false, true⟩, ⟨36, 0.92, 1.2, false, true⟩,
     ⟨40, 0.92, 0.8, false, true⟩, ⟨43, 0.92, 0.8, true, true⟩,
     ⟨38, 0.92, 0.6, false, true⟩, ⟨36, 0.92, 0.8, false, true⟩]

/-- The padAmbient preset. -/
def padAmbient : PresetDefinition where
  params :=
    { oscillatorType := OscType.sine, frequency := 440, volume := 0.15
      attack := 0.5, decay := 0.8, sustain := 0.6, release := 1.0
      cutoff := 4000, resonance := 1, filterType := FilterType.lowpass
      lfoRate := 1.2, lfoAmount := 0.35, detuneAmount := 0.2
      ringModAmount := 0, wetness := 0.6, coarseness := 0.3 }
  tempo := 60
  sequencerSteps :=
    [⟨48, 0.6, 1.0, false, true⟩, ⟨0, 0.6, 1.0, false, false⟩,
     ⟨52, 0.6, 1.0, false, true⟩, ⟨0, 0.6, 1.0, false, false⟩,
     ⟨55, 0.6, 1.0, false, true⟩, ⟨0, 0.6, 1.0, false, false⟩,
     ⟨60, 0.6, 1.0, true, true⟩, ⟨0, 0.6, 1.0, false, false⟩,
     ⟨48, 0.6, 1.0, false, true⟩, ⟨0, 0.6, 1.0, false, false⟩,
     ⟨52, 0.6, 1.0, false, true⟩, ⟨0, 0.6, 1.0, false, false⟩,
     ⟨55, 0.6, 1.0, false, true⟩, ⟨0, 0.6, 1.0, false, false⟩,
     ⟨57, 0.6, 1.0, true, true⟩, ⟨0, 0.6, 1.0, false, false⟩]

/-- The leadBright preset. -/
def leadBright : PresetDefinition where
  params :=
    { oscillatorType := OscType.square, frequency := 440, volume := 0.22
      attack := 0.005, decay := 0.12, sustain := 0.4, release := 0.1
      cutoff := 5000, resonance := 3, filterType := FilterType.lowpass
      lfoRate := 7, lfoAmount := 0.12, detuneAmount := 0.15
      ringModAmount := 0, wetness := 0.2, coarseness := 0.7 }
  tempo := 140
  sequencerSteps :=
    [⟨60, 0.9, 0.6, false, true⟩, ⟨62, 0.8, 0.5, false, true⟩,
     ⟨64, 0.85, 0.7, false, true⟩, ⟨65, 0.9, 0.6, false, true⟩,
     ⟨67, 0.8, 0.5, false, true⟩, ⟨69, 0.85, 0.7, false, true⟩,
     ⟨70, 0.9, 0.6, true, true⟩, ⟨72, 0.8, 0.5, true, true⟩,
     ⟨64, 0.85, 0.7, false, true⟩, ⟨60, 0.9, 0.6, false, true⟩,
     ⟨0, 0.8, 0.5, false, false⟩, ⟨62, 0.85, 0.7, false, true⟩,
     ⟨67, 0.9, 0.6, false, true⟩, ⟨0, 0.8, 0.5, false, false⟩,
     ⟨64, 0.85, 0.7, false, true⟩, ⟨60, 0.9, 0.8, false, true⟩]

/-- The bassDeep preset (the startup default). -/
def bassDeep : PresetDefinition where
  params :=
    { oscillatorType := OscType.sawtooth, frequency := 440, volume := 0.35
      attack := 0.005, decay := 0.2, sustain := 0.2, release := 0.25
      cutoff := 900, resonance := 12, filterType := FilterType.lowpass
      lfoRate := 2.5, lfoAmount := 0.2, detuneAmount := 0.1
      ringModAmount := 0, wetness := 0.15, coarseness := 0.8 }
  tempo := 95
  sequencerSteps :=
    [⟨24, 0.95, 0.8, false, true⟩, ⟨0, 0.95, 0.4, false, false⟩,
     ⟨29, 0.92, 0.8, true, true⟩, ⟨0, 0.95, 0.4, false, false⟩,
     ⟨26, 0.93, 0.8, true, true⟩, ⟨0, 0.95, 0.4, false, false⟩,
     ⟨22, 0.92, 0.8, false, true⟩, ⟨0, 0.95, 0.4, false, false⟩,
     ⟨24, 0.95, 0.8, false, true⟩, ⟨0, 0.95, 0.4, false, false⟩,
     ⟨31, 0.93, 0.8, true, true⟩, ⟨0, 0.95, 0.4, false, false⟩,
     ⟨26, 0.92, 0.8, true, true⟩, ⟨0, 0.95, 0.4, false, false⟩,
     ⟨24, 0.93, 1.0, false, true⟩, ⟨0, 0.95, 0.4, false, false⟩]

/-- The pluckStaccato preset. -/
def pluckStaccato : PresetDefinition where
  params :=
    { oscillatorType := OscType.triangle, frequency := 440, volume := 0.24
      attack := 0.002, decay := 0.08, sustain := 0.05, release := 0.05
      cutoff := 3500, resonance := 4, filterType := FilterType.highpass
      lfoRate := 5, lfoAmount := 0.1, detuneAmount := 0.1
      ringModAmount := 0, wetness := 0.1, coarseness := 0.4 }
  tempo := 160
  sequencerSteps :=
    [⟨54, 0.9, 0.3, false, true⟩, ⟨57, 0.8, 0.3, false, true⟩,
     ⟨59, 0.85, 0.3, false, true⟩, ⟨54, 0.9, 0.3, false, true⟩,
     ⟨62, 0.8, 0.3, false, true⟩, ⟨57, 0.85, 0.3, false, true⟩,
     ⟨54, 0.9, 0.3, false, true⟩, ⟨0, 0.8, 0.3, false, false⟩,
     ⟨59, 0.85, 0.3, false, true⟩, ⟨54, 0.9, 0.3, false, true⟩,
     ⟨57, 0.8, 0.3, false, true⟩, ⟨62, 0.85, 0.3, false, true⟩,
     ⟨54, 0.9, 0.3, false, true⟩, ⟨59, 0.8, 0.3, false, true⟩,
     ⟨57, 0.85, 0.3, false, true⟩, ⟨54, 0.9, 0.3, false, true⟩]

/-- The experimental preset. -/
def experimental : PresetDefinition where
  params :=
    { oscillatorType := OscType.square, frequency := 440, volume := 0.18
      attack := 0.08, decay := 0.2, sustain := 0.25, release := 0.15
      cutoff := 2000, resonance := 5, filterType := FilterType.bandpass
      lfoRate := 6, lfoAmount := 0.4, detuneAmount := 0.3
      ringModAmount := 0.6, wetness := 0.4, coarseness := 0.9 }
  tempo := 110
  sequencerSteps :=
    [⟨45, 0.8, 0.7, false, true⟩, ⟨0, 0.8, 0.3, false, false⟩,
     ⟨50, 0.7, 0.7, true, true⟩, ⟨0, 0.8, 0.3, false, false⟩,
     ⟨47, 0.75, 0.7, true, true⟩, ⟨0, 0.8, 0.3, false, false⟩,
     ⟨52, 0.8, 0.7, false, true⟩, ⟨0, 0.8, 0.3, false, false⟩,
     ⟨43, 0.75, 0.7, true, true⟩, ⟨0, 0.8, 0.3, false, false⟩,
     ⟨48, 0.8, 0.7, false, true⟩, ⟨0, 0.8, 0.3, false, false⟩,
     ⟨50, 0.7, 0.7, true, true⟩, ⟨0, 0.8, 0.3, false, false⟩,
     ⟨45, 0.75, 0.7, true, true⟩, ⟨0, 0.8, 0.3, false, false⟩]

/-- The keys of the PRESETS record. -/
inductive PresetName
  | acidTechno
  | padAmbient
  | leadBright
  | bassDeep
  | pluckStaccato
  | experimental
deriving DecidableEq

/-- Lookup in the PRESETS record. -/
def getPreset : PresetName → PresetDefinition
  | PresetName.acidTechno => acidTechno
  | PresetName.padAmbient => padAmbient
  | PresetName.leadBright => leadBright
  | PresetName.bassDeep => bassDeep
  | PresetName.pluckStaccato => pluckStaccato
  | PresetName.experimental => experimental

/-- The Math.random() results one step of the random-sequence generator
consumes, each a rational in [0, 1). -/
structure RandomDraws where
  restRoll : ℚ
  noteRoll : ℚ
  velocityRoll : ℚ
  durationRoll : ℚ
  slideRoll : ℚ
  enabledRoll : ℚ

/-- One step of the random-sequence helper: note 0 with probability 0.3,
else floor(noteRoll * (40 - 20 + 1)) + 20; velocity 0.6 + r * 0.4;
duration 0.5 + r * 0.5; slide with probability 0.3; enabled with
probability 0.7. -/
def randomStep (d : RandomDraws) : SequencerNote where
  note := if d.restRoll < 0.3 then 0 else (Int.floor (d.noteRoll * (40 - 20 + 1))).toNat + 20
  velocity := 0.6 + d.velocityRoll * 0.4
  duration := 0.5 + d.durationRoll * 0.5
  slide := decide (d.slideRoll < 0.3)
  enabled := decide (d.enabledRoll < 0.7)

/-- generateRandomSequence helper: 16 independently drawn steps. -/
def generateRandomSequenceSteps (draw : Nat → RandomDraws) : List SequencerNote :=
  (List.range 16).map fun i => randomStep (draw i)

/-- The sequencer-related slice of the zustand store state. -/
structure StoreState where
  params : SynthesizerParams
  sequencerSteps : List (Option SequencerNote)
  currentStep : Nat
  tempo : ℚ
deriving DecidableEq

/-- Store state at creation: the bassDeep default preset. -/
def initStore : StoreState where
  params := bassDeep.params
  sequencerSteps := bassDeep.sequencerSteps.map some
  currentStep := 0
  tempo := bassDeep.tempo

/-- JS indexed array write newSteps[index] = x on a copied array: an
in-range index replaces the cell; an index at or past the length grows the
array to index + 1 cells, filling the gap with holes. -/
def jsArraySet {α : Type} (l : List (Option α)) (i : Nat) (x : α) : List (Option α) :=
  if i < l.length then l.set i (some x)
  else l ++ List.replicate (i - l.length) none ++ [some x]

/-- setSequencerStep action. -/
def setSequencerStep (s : StoreState) (index : Nat) (note : SequencerNote) : StoreState :=
  { s with sequencerSteps := jsArraySet s.sequencerSteps index note }

/-- clearSequencer action: 16 rest-but-enabled steps, currentStep reset. -/
def clearSequencer (s : StoreState) : StoreState :=
  { s with
      sequencerSteps := List.replicate 16 (some ⟨0, 0.8, 0.5, false, true⟩)
      currentStep := 0 }

/-- loadPreset action (every PresetName is a key, so the not-found branch
returning the unchanged state cannot trigger). -/
def loadPreset (s : StoreState) (presetName : PresetName) : StoreState :=
  let preset := getPreset presetName
  { s with
      params := preset.params
      tempo := preset.tempo
      sequencerSteps := preset.sequencerSteps.map some
      currentStep := 0 }

/-- generateRandomSequence action. -/
def generateRandomSequence (draw : Nat → RandomDraws) (s : StoreState) : StoreState :=
  { s with sequencerSteps := (generateRandomSequenceSteps draw).map some }

end Store

namespace App

/-
Embedding of the sequencer clock in App.tsx: the interval tick body and
the Running-to-Stopped transition.
-/

/-- Step period in milliseconds computed by the sequencer effect:
(60000 / tempo) / 4, sixteenth notes. -/
def stepDurationMs (tempo : ℚ) : ℚ := (60000 / tempo) / 4

/-- The voice-manager interactions one interval tick can issue:
a direct noteOn call, and a setTimeout registering noteOff(note) after
the given delay. -/
inductive TickCall
  | noteOnCall (note : Nat) (velocity : ℚ) (slideTime : ℚ)
  | scheduleNoteOff (note : Nat) (delayMs : ℚ)
deriving DecidableEq

/-- One tick of the repeating sequencer interval: advance
nextStep = (nextStep + 1) % 16, publish it via setCurrentStep, read the
step at the new index, and when it is enabled with note > 0 call
noteOn(note, velocity, slide ? 0.3 : 0) and schedule
noteOff(note) after stepDurationMs * duration * 0.9 ms. -/
def seqTick (tempo : ℚ) (steps : List SequencerNote) (currentStep : Nat) :
    Nat × List TickCall :=
  let nextStep := (currentStep + 1) % 16
  let note := steps.getD nextStep ⟨0, 0, 0, false, false⟩
  let calls :=
    if note.enabled ∧ note.note > 0 then
      let slideTime : ℚ := if note.slide then 0.3 else 0
      [TickCall.noteOnCall note.note note.velocity slideTime,
       TickCall.scheduleNoteOff note.note (stepDurationMs tempo * note.duration * 0.9)]
    else []
  (nextStep, calls)

/-- The App component state the sequencer effect manipulates: whether the
repeating interval is registered, the set of pending one-shot note-off
timeouts (delay, note), the active keyboard keys, and the synthesizer
(the ToneSynthesizer implementation, which App.tsx imports). -/
structure AppState (F : Type) where
  seqIntervalActive : Bool
  pendingNoteOffs : List (ℚ × Nat)
  activeKeys : List Nat
  synth : ToneSynth.ToneState F
deriving DecidableEq

/-- stopAllAudio from App.tsx: clearTimeout on every pending note-off and
clear the set, stopAllNotes on the synthesizer, then noteOff and release
every active keyboard key. -/
def stopAllAudio {F : Type} (a : AppState F) : AppState F :=
  let a1 := { a with pendingNoteOffs := [] }
  let s1 := ToneSynth.stopAllNotes a1.synth
  let s2 := a1.activeKeys.foldl (fun st k => ToneSynth.noteOff st k) s1
  { a1 with synth := s2, activeKeys := [] }

/-- The Running-to-Stopped transition: the effect cleanup clears the
repeating interval and cancels every pending one-shot note-off timeout,
and the re-run effect body, seeing isSequencerRunning false, clears the
interval again and calls stopAllAudio. -/
def stopSequencer {F : Type} (a : AppState F) : AppState F :=
  let a1 := { a with seqIntervalActive := false, pendingNoteOffs := [] }
  stopAllAudio a1

end App

/-
Helper lemmas about the container embedding and the models, followed by
the claim theorems.
-/

namespace JsMap

theorem mapGet_mapSet_self {α : Type} (m : List (Nat × α)) (k : Nat) (v : α) :
    mapGet (mapSet m k v) k = some v := by
  induction m with
  | nil => simp [mapSet, mapGet]
  | cons p rest ih =>
      cases hpk : (p.1 == k) with
      | true => simp [mapSet, mapGet, hpk]
      | false => simp [mapSet, mapGet, hpk, ih]

theorem mapGet_mapDelete_self {α : Type} (m : List (Nat × α)) (k : Nat) :
    mapGet (mapDelete m k) k = none := by
  induction m with
  | nil => simp [mapDelete, mapGet]
  | cons p rest ih =>
      cases hpk : (p.1 == k) with
      | true => simp [mapDelete, hpk, ih]
      | false => simp [mapDelete, mapGet, hpk, ih]

theorem mapCount_mapDelete_self {α : Type} (m : List (Nat × α)) (k : Nat) :
    mapCount (mapDelete m k) k = 0 := by
  induction m with
  | nil => simp [mapDelete, mapCount]
  | cons p rest ih =>
      cases hpk : (p.1 == k) with
      | true => simp [mapDelete, hpk, ih]
      | false => simp [mapDelete, mapCount, hpk, ih]

theorem mapCount_mapSet_self {α : Type} (m : List (Nat × α)) (k : Nat) (v : α)
    (h : mapCount m k ≤ 1) : mapCount (mapSet m k v) k = 1 := by
  induction m with
  | nil => simp [mapSet, mapCount]
  | cons p rest ih =>
      cases hpk : (p.1 == k) with
      | true =>
          simp only [mapCount, hpk, if_pos] at h
          have hrest : mapCount rest k = 0 := by omega
          simp [mapSet, mapCount, hpk, hrest]
      | false =>
          simp only [mapCount, hpk] at h
          simp only [Bool.false_eq_true, if_false, Nat.zero_add] at h
          simp [mapSet, mapCount, hpk, ih h]

theorem setHas_append_self (s : List Nat) (k : Nat) :
    setHas (s ++ [k]) k = true := by
  induction s with
  | nil => simp [setHas]
  | cons x rest ih =>
      cases hxk : (x == k) with
      | true => simp [setHas, hxk]
      | false => simpa [setHas, hxk] using ih

theorem setHas_setAdd_self (s : List Nat) (k : Nat) :
    setHas (setAdd s k) k = true := by
  unfold setAdd
  cases h : setHas s k with
  | true => simp [h]
  | false => simp [h, setHas_append_self]

theorem setHas_setDelete_self (s : List Nat) (k : Nat) :
    setHas (setDelete s k) k = false := by
  induction s with
  | nil => simp [setDelete, setHas]
  | cons x rest ih =>
      cases hxk : (x == k) with
      | true => simp [setDelete, hxk, ih]
      | false => simp [setDelete, setHas, hxk, ih]

end JsMap

theorem tone_noteOff_params {F : Type} (s : ToneSynth.ToneState F) (n : Nat) :
    (ToneSynth.noteOff s n).params = s.params := by
  unfold ToneSynth.noteOff
  cases mapGet s.voices n <;> rfl

theorem tone_noteOff_now {F : Type} (s : ToneSynth.ToneState F) (n : Nat) :
    (ToneSynth.noteOff s n).now = s.now := by
  unfold ToneSynth.noteOff
  cases mapGet s.voices n <;> rfl

theorem tone_noteOff_pending_mem {F : Type} (s : ToneSynth.ToneState F) (n : Nat)
    (e : ℚ × ToneSynth.ToneTimer F) (h : e ∈ s.pending) : e ∈ (ToneSynth.noteOff s n).pending := by
  unfold ToneSynth.noteOff
  cases mapGet s.voices n with
  | none => exact h
  | some v => simp [h]

theorem wa_noteOff_params {F : Type} (s : WebAudio.WAState F) (n : Nat) :
    (WebAudio.noteOff s n).params = s.params := by
  unfold WebAudio.noteOff
  cases mapGet s.gains n <;> cases mapGet s.oscillators n <;>
    simp only [] <;> split <;> rfl

theorem wa_noteOff_now {F : Type} (s : WebAudio.WAState F) (n : Nat) :
    (WebAudio.noteOff s n).now = s.now := by
  unfold WebAudio.noteOff
  cases mapGet s.gains n <;> cases mapGet s.oscillators n <;>
    simp only [] <;> split <;> rfl

theorem wa_noteOff_activeNotes {F : Type} (s : WebAudio.WAState F) (n : Nat) :
    (WebAudio.noteOff s n).activeNotes = s.activeNotes := by
  unfold WebAudio.noteOff
  cases mapGet s.gains n <;> cases mapGet s.oscillators n <;>
    simp only [] <;> split <;> rfl

theorem app_pending_mem_foldl_noteOff {F : Type} (ks : List Nat)
    (s : ToneSynth.ToneState F) (e : ℚ × ToneSynth.ToneTimer F)
    (h : e ∈ s.pending) :
    e ∈ (ks.foldl (fun st k => ToneSynth.noteOff st k) s).pending := by
  induction ks generalizing s with
  | nil => exact h
  | cons k rest ih => exact ih _ (tone_noteOff_pending_mem _ _ _ h)

theorem frequencyToMidiNote_midiNoteToFrequency (n : ℤ) :
    frequencyToMidiNote (midiNoteToFrequency n) = n := by
  unfold frequencyToMidiNote midiNoteToFrequency
  rw [mul_div_cancel_left₀ _ (show (440 : ℝ) ≠ 0 by norm_num)]
  rw [Real.logb_rpow (by norm_num) (by norm_num)]
  have h : (69 : ℝ) + 12 * (((n : ℝ) - 69) / 12) = (n : ℝ) := by ring
  rw [h, round_intCast]

/-- Claim C9: midiToFrequency(69) equals 440, and for every integer note n
the conversion chain midiToFrequency(frequencyToMidi(midiToFrequency(n)))
reproduces midiToFrequency(n) (exact over the reals, hence within floating
rounding), with frequencyToMidi rounding to the nearest integer note. -/
theorem c9_midi_frequency_roundtrip :
    midiNoteToFrequency 69 = 440 ∧
    ∀ n : ℤ,
      frequencyToMidiNote (midiNoteToFrequency n) = n ∧
      midiNoteToFrequency (frequencyToMidiNote (midiNoteToFrequency n)) =
        midiNoteToFrequency n := by
  constructor
  · unfold midiNoteToFrequency
    norm_num
  · intro n
    refine ⟨frequencyToMidiNote_midiNoteToFrequency n, ?_⟩
    rw [frequencyToMidiNote_midiNoteToFrequency n]

theorem tone_noteOn_activeNotes_has {F : Type} [Field F] (mtf : Nat → F)
    (s : ToneSynth.ToneState F) (n : Nat) (v sl : ℚ) :
    setHas (ToneSynth.noteOn mtf s n v sl).activeNotes n = true :=
  setHas_setAdd_self _ _

theorem tone_noteOn_voices_get {F : Type} [Field F] (mtf : Nat → F)
    (s : ToneSynth.ToneState F) (n : Nat) (v sl : ℚ) :
    ∃ w, mapGet (ToneSynth.noteOn mtf s n v sl).voices n = some w :=
  ⟨_, mapGet_mapSet_self _ _ _⟩

theorem tone_noteOn_pending_eq {F : Type} [Field F] (mtf : Nat → F)
    (s : ToneSynth.ToneState F) (n : Nat) (v sl : ℚ) :
    (ToneSynth.noteOn mtf s n v sl).pending =
      (if setHas s.activeNotes n then ToneSynth.noteOff s n else s).pending := rfl

theorem tone_noteOn_on_active {F : Type} [Field F] (mtf : Nat → F)
    (s1 : ToneSynth.ToneState F) (n : Nat) (v sl : ℚ) (w : ToneSynth.VoiceNode F)
    (hhas : setHas s1.activeNotes n = true) (hw : mapGet s1.voices n = some w) :
    mapCount (ToneSynth.noteOn mtf s1 n v sl).voices n = 1 ∧
    (ToneSynth.noteOn mtf s1 n v sl).pending =
      s1.pending ++ [(s1.params.release * 1000 + 100,
        ToneSynth.ToneTimer.disposeVoice
          { w with synth := { w.synth with releaseAt := some s1.now },
                   lfo := { w.lfo with stopped := true } })] := by
  have hv : (ToneSynth.noteOff s1 n).voices = mapDelete s1.voices n := by
    unfold ToneSynth.noteOff
    rw [hw]
  constructor
  · refine mapCount_mapSet_self _ _ _ ?_
    rw [show (if setHas s1.activeNotes n then ToneSynth.noteOff s1 n else s1) =
          ToneSynth.noteOff s1 n from if_pos hhas]
    rw [hv, mapCount_mapDelete_self]
    exact Nat.zero_le 1
  · rw [tone_noteOn_pending_eq]
    rw [show (if setHas s1.activeNotes n then ToneSynth.noteOff s1 n else s1) =
          ToneSynth.noteOff s1 n from if_pos hhas]
    unfold ToneSynth.noteOff
    rw [hw]

theorem tone_noteOn_lfo_pos {F : Type} [Field F] (mtf : Nat → F)
    (s : ToneSynth.ToneState F) (n : Nat) (v sl : ℚ)
    (hl : s.params.lfoAmount > 0) :
    ∃ vc, mapGet (ToneSynth.noteOn mtf s n v sl).voices n = some vc ∧
      vc.lfo = { isDefault := false
                 frequencyValue := some s.params.lfoRate
                 minValue := some (mtf n * (19/20))
                 maxValue := some (mtf n * (21/20))
                 connectedToFrequency := true
                 started := true
                 stopped := false } := by
  have hP : (if setHas s.activeNotes n then ToneSynth.noteOff s n else s).params = s.params := by
    split
    exacts [tone_noteOff_params s n, rfl]
  unfold ToneSynth.noteOn
  dsimp only
  rw [hP, if_pos hl]
  exact ⟨_, mapGet_mapSet_self _ _ _, rfl⟩

theorem tone_noteOn_lfo_neg {F : Type} [Field F] (mtf : Nat → F)
    (s : ToneSynth.ToneState F) (n : Nat) (v sl : ℚ)
    (hl : ¬ s.params.lfoAmount > 0) :
    ∃ vc, mapGet (ToneSynth.noteOn mtf s n v sl).voices n = some vc ∧
      vc.lfo = { isDefault := true
                 frequencyValue := none
                 minValue := none
                 maxValue := none
                 connectedToFrequency := false
                 started := false
                 stopped := false } := by
  have hP : (if setHas s.activeNotes n then ToneSynth.noteOff s n else s).params = s.params := by
    split
    exacts [tone_noteOff_params s n, rfl]
  unfold ToneSynth.noteOn
  dsimp only
  rw [hP, if_neg hl]
  exact ⟨_, mapGet_mapSet_self _ _ _, rfl⟩

theorem wa_noteOff_pending {F : Type} (s : WebAudio.WAState F) (n : Nat) :
    (WebAudio.noteOff s n).pending =
      s.pending ++ [(s.params.release * 1000 + 100, WebAudio.WATimer.cleanupNote n)] := by
  unfold WebAudio.noteOff
  cases hg : mapGet s.gains n <;> cases ho : mapGet s.oscillators n <;>
    dsimp only <;> (repeat' split) <;> rfl

theorem wa_noteOn_activeNotes {F : Type} [Field F] (mtf : Nat → F)
    (s : WebAudio.WAState F) (n : Nat) (v sl : ℚ) :
    (WebAudio.noteOn mtf s n v sl).activeNotes =
      setAdd (if setHas s.activeNotes n then WebAudio.noteOff s n else s).activeNotes n := by
  unfold WebAudio.noteOn
  dsimp only
  repeat' split
  all_goals rfl

theorem wa_noteOn_pending {F : Type} [Field F] (mtf : Nat → F)
    (s : WebAudio.WAState F) (n : Nat) (v sl : ℚ) :
    (WebAudio.noteOn mtf s n v sl).pending =
      (if setHas s.activeNotes n then WebAudio.noteOff s n else s).pending := by
  unfold WebAudio.noteOn
  dsimp only
  repeat' split
  all_goals rfl

theorem wa_noteOn_now {F : Type} [Field F] (mtf : Nat → F)
    (s : WebAudio.WAState F) (n : Nat) (v sl : ℚ) :
    (WebAudio.noteOn mtf s n v sl).now =
      (if setHas s.activeNotes n then WebAudio.noteOff s n else s).now := by
  unfold WebAudio.noteOn
  dsimp only
  repeat' split
  all_goals rfl

theorem wa_noteOn_osc_exists {F : Type} [Field F] (mtf : Nat → F)
    (s : WebAudio.WAState F) (n : Nat) (v sl : ℚ) :
    ∃ o, (WebAudio.noteOn mtf s n v sl).oscillators =
        mapSet (if setHas s.activeNotes n then WebAudio.noteOff s n else s).oscillators n o := by
  unfold WebAudio.noteOn
  dsimp only
  repeat' split
  all_goals exact ⟨_, rfl⟩

theorem wa_noteOn_osc_get {F : Type} [Field F] (mtf : Nat → F)
    (s : WebAudio.WAState F) (n : Nat) (v sl : ℚ) :
    ∃ o, mapGet (WebAudio.noteOn mtf s n v sl).oscillators n = some o := by
  obtain ⟨o, ho⟩ := wa_noteOn_osc_exists mtf s n v sl
  exact ⟨o, by rw [ho]; exact mapGet_mapSet_self _ _ _⟩

theorem wa_noteOn_gains_get {F : Type} [Field F] (mtf : Nat → F)
    (s : WebAudio.WAState F) (n : Nat) (v sl : ℚ) :
    ∃ g, mapGet (WebAudio.noteOn mtf s n v sl).gains n = some g := by
  unfold WebAudio.noteOn
  dsimp only
  repeat' split
  all_goals exact ⟨_, mapGet_mapSet_self _ _ _⟩

theorem wa_noteOff_oscCount_le {F : Type} (s : WebAudio.WAState F) (n : Nat)
    (h : mapCount s.oscillators n ≤ 1) :
    mapCount (WebAudio.noteOff s n).oscillators n ≤ 1 := by
  unfold WebAudio.noteOff
  cases hg : mapGet s.gains n <;> cases ho : mapGet s.oscillators n <;>
    dsimp only <;> (repeat' split) <;>
    first
      | exact h
      | exact le_of_eq (mapCount_mapSet_self _ _ _ h)

theorem wa_noteOn_oscCount {F : Type} [Field F] (mtf : Nat → F)
    (s : WebAudio.WAState F) (n : Nat) (v sl : ℚ)
    (h : mapCount s.oscillators n ≤ 1) :
    mapCount (WebAudio.noteOn mtf s n v sl).oscillators n = 1 := by
  obtain ⟨o, ho⟩ := wa_noteOn_osc_exists mtf s n v sl
  rw [ho]
  refine mapCount_mapSet_self _ _ _ ?_
  split
  · exact wa_noteOff_oscCount_le s n h
  · exact h

theorem wa_noteOn_osc_slide {F : Type} [Field F] (mtf : Nat → F)
    (s : WebAudio.WAState F) (n : Nat) (v sl : ℚ) (hsl : sl > 0) :
    ∃ o, mapGet (WebAudio.noteOn mtf s n v sl).oscillators n = some o ∧
      o.freqEvents =
        [AudioEvent.setValueAtTime
           (if s.activeNotes.length > 0 then mtf (s.activeNotes.foldr max 0)
            else mtf n * (1/2)) s.now,
         AudioEvent.linearRampToValueAtTime (mtf n) (s.now + sl)] := by
  have hA : (if setHas s.activeNotes n then WebAudio.noteOff s n else s).activeNotes = s.activeNotes := by
    split
    exacts [wa_noteOff_activeNotes s n, rfl]
  have hN : (if setHas s.activeNotes n then WebAudio.noteOff s n else s).now = s.now := by
    split
    exacts [wa_noteOff_now s n, rfl]
  unfold WebAudio.noteOn
  dsimp only
  rw [if_pos hsl, hA, hN]
  repeat' split
  all_goals exact ⟨_, mapGet_mapSet_self _ _ _, rfl⟩

theorem wa_noteOn_osc_noslide {F : Type} [Field F] (mtf : Nat → F)
    (s : WebAudio.WAState F) (n : Nat) (v sl : ℚ) (hsl : ¬ sl > 0) :
    ∃ o, mapGet (WebAudio.noteOn mtf s n v sl).oscillators n = some o ∧
      o.freqEvents = [AudioEvent.setValueAtTime (mtf n) s.now] := by
  have hN : (if setHas s.activeNotes n then WebAudio.noteOff s n else s).now = s.now := by
    split
    exacts [wa_noteOff_now s n, rfl]
  unfold WebAudio.noteOn
  dsimp only
  rw [if_neg hsl, hN]
  repeat' split
  all_goals exact ⟨_, mapGet_mapSet_self _ _ _, rfl⟩

theorem wa_noteOn_lfos_pos {F : Type} [Field F] (mtf : Nat → F)
    (s : WebAudio.WAState F) (n : Nat) (v sl : ℚ)
    (hl : s.params.lfoAmount > 0) :
    mapGet (WebAudio.noteOn mtf s n v sl).lfos n =
      some { lfoFrequencyValue := s.params.lfoRate
             lfoGainValue := s.params.lfoAmount * 100
             started := true } := by
  have hP : (if setHas s.activeNotes n then WebAudio.noteOff s n else s).params = s.params := by
    split
    exacts [wa_noteOff_params s n, rfl]
  unfold WebAudio.noteOn
  dsimp only
  rw [hP, if_pos hl]
  by_cases hr : s.params.ringModAmount > 0 ∧ s.params.ringModAmount < 1
  · rw [if_pos hr]
    exact mapGet_mapSet_self _ _ _
  · rw [if_neg hr]
    exact mapGet_mapSet_self _ _ _

theorem wa_connCount_disabled {F : Type} [Field F] (mtf : Nat → F)
    (s : WebAudio.WAState F) (n : Nat) (v sl : ℚ)
    (hr : ¬ (s.params.ringModAmount > 0 ∧ s.params.ringModAmount < 1)) :
    ((mapGet (WebAudio.noteOn mtf s n v sl).connLog n).getD []).count
      WebAudio.Conn.oscToFilter = 2 := by
  have hP : (if setHas s.activeNotes n then WebAudio.noteOff s n else s).params = s.params := by
    split
    exacts [wa_noteOff_params s n, rfl]
  unfold WebAudio.noteOn
  dsimp only
  rw [hP, if_neg hr]
  by_cases hl : s.params.lfoAmount > 0
  · rw [if_pos hl, mapGet_mapSet_self]
    rfl
  · rw [if_neg hl, mapGet_mapSet_self]
    rfl

theorem wa_connCount_enabled {F : Type} [Field F] (mtf : Nat → F)
    (s : WebAudio.WAState F) (n : Nat) (v sl : ℚ)
    (hr : s.params.ringModAmount > 0 ∧ s.params.ringModAmount < 1) :
    ((mapGet (WebAudio.noteOn mtf s n v sl).connLog n).getD []).count
      WebAudio.Conn.oscToFilter = 1 := by
  have hP : (if setHas s.activeNotes n then WebAudio.noteOff s n else s).params = s.params := by
    split
    exacts [wa_noteOff_params s n, rfl]
  unfold WebAudio.noteOn
  dsimp only
  rw [hP, if_pos hr]
  by_cases hl : s.params.lfoAmount > 0
  · rw [if_pos hl, mapGet_mapSet_self]
    rfl
  · rw [if_neg hl, mapGet_mapSet_self]
    rfl

/-- Claim C1: for every note n, calling noteOn(n) while n already has a
live Voice first performs the noteOff path for n (observable as the
noteOff-scheduled cleanup appended to the pending timers) and then builds
a new Voice, so that after noteOn followed immediately by noteOn for the
same note exactly one Voice is live for that note in the voice map.
Stated for both implementations; the WebAudio half carries the JS-Map
well-formedness bound on the starting state. -/
theorem c1_retrigger_single_voice :
    (∀ (F : Type) [Field F] (mtf : Nat → F) (s : ToneSynth.ToneState F)
        (n : Nat) (v sl : ℚ),
        setHas (ToneSynth.noteOn mtf s n v sl).activeNotes n = true ∧
        mapCount (ToneSynth.noteOn mtf (ToneSynth.noteOn mtf s n v sl) n v sl).voices n = 1 ∧
        (∃ rv, (ToneSynth.noteOn mtf (ToneSynth.noteOn mtf s n v sl) n v sl).pending =
          (ToneSynth.noteOn mtf s n v sl).pending ++
            [((ToneSynth.noteOn mtf s n v sl).params.release * 1000 + 100,
              ToneSynth.ToneTimer.disposeVoice rv)])) ∧
    (∀ (F : Type) [Field F] (mtf : Nat → F) (s : WebAudio.WAState F)
        (n : Nat) (v sl : ℚ),
        mapCount s.oscillators n ≤ 1 →
        setHas (WebAudio.noteOn mtf s n v sl).activeNotes n = true ∧
        mapCount (WebAudio.noteOn mtf (WebAudio.noteOn mtf s n v sl) n v sl).oscillators n = 1 ∧
        (WebAudio.noteOn mtf (WebAudio.noteOn mtf s n v sl) n v sl).pending =
          (WebAudio.noteOn mtf s n v sl).pending ++
            [((WebAudio.noteOn mtf s n v sl).params.release * 1000 + 100,
              WebAudio.WATimer.cleanupNote n)]) := by
  constructor
  · intro F _ mtf s n v sl
    obtain ⟨w, hw⟩ := tone_noteOn_voices_get mtf s n v sl
    have hhas := tone_noteOn_activeNotes_has mtf s n v sl
    obtain ⟨hcount, hpend⟩ := tone_noteOn_on_active mtf _ n v sl w hhas hw
    exact ⟨hhas, hcount, ⟨_, hpend⟩⟩
  · intro F _ mtf s n v sl h
    have h1 : mapCount (WebAudio.noteOn mtf s n v sl).oscillators n = 1 :=
      wa_noteOn_oscCount mtf s n v sl h
    have hhas : setHas (WebAudio.noteOn mtf s n v sl).activeNotes n = true := by
      rw [wa_noteOn_activeNotes]
      exact setHas_setAdd_self _ _
    refine ⟨hhas, wa_noteOn_oscCount mtf _ n v sl (le_of_eq h1), ?_⟩
    rw [wa_noteOn_pending, if_pos hhas, wa_noteOff_pending]

/-- Witness for C1 at note 60 from the freshly constructed synthesizers. -/
theorem c1_retrigger_single_voice_witness :
    mapCount (ToneSynth.noteOn (fun k => (k : ℚ))
        (ToneSynth.noteOn (fun k => (k : ℚ)) (ToneSynth.initState ℚ) 60 1 0) 60 1 0).voices 60 = 1 ∧
    mapCount (WebAudio.noteOn (fun k => (k : ℚ))
        (WebAudio.noteOn (fun k => (k : ℚ)) (WebAudio.initState ℚ) 60 1 0) 60 1 0).oscillators 60 = 1 :=
  ⟨(c1_retrigger_single_voice.1 ℚ (fun k => (k : ℚ)) (ToneSynth.initState ℚ) 60 1 0).2.1,
   (c1_retrigger_single_voice.2 ℚ (fun k => (k : ℚ)) (WebAudio.initState ℚ) 60 1 0 (by decide)).2.1⟩

/-- Counterexample to C2 as stated: in WebAudioSynthesizer, after
noteOn(60) a noteOff(60) leaves 60 in the active-note set and leaves the
oscillator map entry in place when the call returns (removal happens only
in the setTimeout callback). -/
theorem c2_webaudio_noteoff_not_immediate_cex :
    setHas (WebAudio.noteOff
        (WebAudio.noteOn (fun k => (k : ℚ)) (WebAudio.initState ℚ) 60 1 0) 60).activeNotes 60 = true ∧
    (mapGet (WebAudio.noteOff
        (WebAudio.noteOn (fun k => (k : ℚ)) (WebAudio.initState ℚ) 60 1 0) 60).oscillators 60).isSome = true := by
  decide

/-- Claim C2 (amended): in ToneSynthesizer, noteOff on a live note removes
it from the active-note set and from the voice map synchronously and
schedules disposal of the captured voice after release * 1000 + 100 ms;
in WebAudioSynthesizer, noteOff leaves the active-note set and the
oscillator map entry in place when the call returns and only the
setTimeout callback registered for release * 1000 + 100 ms later performs
the removal. -/
theorem c2_noteoff_removal_and_disposal :
    (∀ (F : Type) (s : ToneSynth.ToneState F) (n : Nat) (v : ToneSynth.VoiceNode F),
        mapGet s.voices n = some v →
        setHas (ToneSynth.noteOff s n).activeNotes n = false ∧
        mapGet (ToneSynth.noteOff s n).voices n = none ∧
        (ToneSynth.noteOff s n).pending =
          s.pending ++
            [(s.params.release * 1000 + 100,
              ToneSynth.ToneTimer.disposeVoice
                { v with
                    synth := { v.synth with releaseAt := some s.now }
                    lfo := { v.lfo with stopped := true } })]) ∧
    (∀ (F : Type) (s : WebAudio.WAState F) (n : Nat)
        (g : WebAudio.GainNodeRec) (o : WebAudio.OscNode F),
        mapGet s.gains n = some g → mapGet s.oscillators n = some o →
        (WebAudio.noteOff s n).activeNotes = s.activeNotes ∧
        mapGet (WebAudio.noteOff s n).oscillators n =
          some { o with stopAt := some (s.now + s.params.release) } ∧
        (WebAudio.noteOff s n).pending =
          s.pending ++ [(s.params.release * 1000 + 100, WebAudio.WATimer.cleanupNote n)] ∧
        setHas (WebAudio.fireTimer (WebAudio.noteOff s n)
          (WebAudio.WATimer.cleanupNote n)).activeNotes n = false ∧
        mapGet (WebAudio.fireTimer (WebAudio.noteOff s n)
          (WebAudio.WATimer.cleanupNote n)).oscillators n = none) := by
  constructor
  · intro F s n v hv
    unfold ToneSynth.noteOff
    rw [hv]
    exact ⟨setHas_setDelete_self _ _, mapGet_mapDelete_self _ _, rfl⟩
  · intro F s n g o hg ho
    refine ⟨wa_noteOff_activeNotes s n, ?_, wa_noteOff_pending s n,
      setHas_setDelete_self _ _, mapGet_mapDelete_self _ _⟩
    unfold WebAudio.noteOff
    rw [hg, ho]
    dsimp only
    repeat' split
    all_goals exact mapGet_mapSet_self _ _ _

/-- Witness for C2 at note 60 from the freshly constructed synthesizers. -/
theorem c2_noteoff_removal_and_disposal_witness :
    setHas (ToneSynth.noteOff
        (ToneSynth.noteOn (fun k => (k : ℚ)) (ToneSynth.initState ℚ) 60 1 0) 60).activeNotes 60 = false ∧
    mapGet (ToneSynth.noteOff
        (ToneSynth.noteOn (fun k => (k : ℚ)) (ToneSynth.initState ℚ) 60 1 0) 60).voices 60 = none ∧
    (WebAudio.noteOff (WebAudio.noteOn (fun k => (k : ℚ)) (WebAudio.initState ℚ) 60 1 0) 60).pending =
      (WebAudio.noteOn (fun k => (k : ℚ)) (WebAudio.initState ℚ) 60 1 0).pending ++
        [((WebAudio.noteOn (fun k => (k : ℚ)) (WebAudio.initState ℚ) 60 1 0).params.release * 1000 + 100,
          WebAudio.WATimer.cleanupNote 60)] := by
  obtain ⟨w, hw⟩ := tone_noteOn_voices_get (fun k => (k : ℚ)) (ToneSynth.initState ℚ) 60 1 0
  obtain ⟨hA, hV, _⟩ := c2_noteoff_removal_and_disposal.1 ℚ _ 60 w hw
  obtain ⟨g, hg⟩ := wa_noteOn_gains_get (fun k => (k : ℚ)) (WebAudio.initState ℚ) 60 1 0
  obtain ⟨o, ho⟩ := wa_noteOn_osc_get (fun k => (k : ℚ)) (WebAudio.initState ℚ) 60 1 0
  obtain ⟨_, _, hP, _, _⟩ := c2_noteoff_removal_and_disposal.2 ℚ _ 60 g o hg ho
  exact ⟨hA, hV, hP⟩

/-- Counterexample to C3 as stated: in ToneSynthesizer, stopAllNotes
right after noteOn(60) leaves the active-note set equal to the singleton
60 when the call returns (the clearing happens only in the setTimeout
callback). -/
theorem c3_tone_stopall_not_synchronous_cex :
    (ToneSynth.stopAllNotes
        (ToneSynth.noteOn (fun k => (k : ℚ)) (ToneSynth.initState ℚ) 60 1 0)).activeNotes = [60] ∧
    (ToneSynth.stopAllNotes
        (ToneSynth.noteOn (fun k => (k : ℚ)) (ToneSynth.initState ℚ) 60 1 0)).voices.length = 1 := by
  decide

/-- Claim C3 (amended): in WebAudioSynthesizer, stopAllNotes clears the
live-node maps and the active-note set synchronously, so getActiveNotes
called immediately afterwards returns the empty list; in ToneSynthesizer,
stopAllNotes leaves the voice map keys and the active-note set untouched
and registers a single callback after release * 1000 + 100 ms, and only
that callback firing clears the voice map and the active-note set. -/
theorem c3_stopall_clearing :
    (∀ (F : Type) (s : WebAudio.WAState F),
        WebAudio.getActiveNotes (WebAudio.stopAllNotes s) = [] ∧
        (WebAudio.stopAllNotes s).oscillators = [] ∧
        (WebAudio.stopAllNotes s).gains = [] ∧
        (WebAudio.stopAllNotes s).filters = [] ∧
        (WebAudio.stopAllNotes s).lfos = [] ∧
        (WebAudio.stopAllNotes s).ringModOscillators = [] ∧
        (WebAudio.stopAllNotes s).ringModGains = []) ∧
    (∀ (F : Type) (s : ToneSynth.ToneState F),
        (ToneSynth.stopAllNotes s).activeNotes = s.activeNotes ∧
        (ToneSynth.stopAllNotes s).voices.map Prod.fst = s.voices.map Prod.fst ∧
        (ToneSynth.stopAllNotes s).pending =
          s.pending ++ [(s.params.release * 1000 + 100, ToneSynth.ToneTimer.stopAllCleanup)] ∧
        (ToneSynth.fireTimer (ToneSynth.stopAllNotes s)
          ToneSynth.ToneTimer.stopAllCleanup).voices = [] ∧
        (ToneSynth.fireTimer (ToneSynth.stopAllNotes s)
          ToneSynth.ToneTimer.stopAllCleanup).activeNotes = []) := by
  constructor
  · intro F s
    exact ⟨rfl, rfl, rfl, rfl, rfl, rfl, rfl⟩
  · intro F s
    refine ⟨rfl, ?_, rfl, rfl, rfl⟩
    simp [ToneSynth.stopAllNotes, List.map_map, Function.comp_def]

/-- Claim C4: on every tick the sequencer advances
currentStepIndex to (currentStepIndex + 1) mod 16 and, exactly when the
step at the new index is enabled with note > 0, calls
noteOn(step.note, step.velocity, 0.3 if step.slide else 0) and schedules a
one-shot noteOff(step.note) after stepPeriod * step.duration * 0.9 ms,
where stepPeriod = (60000 / tempo) / 4; at tempo 120 the step period is
125 ms. -/
theorem c4_sequencer_tick (tempo : ℚ) (steps : List SequencerNote) (currentStep : Nat) :
    (App.seqTick tempo steps currentStep).1 = (currentStep + 1) % 16 ∧
    (∀ st, steps.getD ((currentStep + 1) % 16) ⟨0, 0, 0, false, false⟩ = st →
      (st.enabled = true ∧ st.note > 0 →
        (App.seqTick tempo steps currentStep).2 =
          [App.TickCall.noteOnCall st.note st.velocity (if st.slide then (0.3 : ℚ) else 0),
           App.TickCall.scheduleNoteOff st.note
             (App.stepDurationMs tempo * st.duration * 0.9)]) ∧
      (¬ (st.enabled = true ∧ st.note > 0) →
        (App.seqTick tempo steps currentStep).2 = [])) ∧
    App.stepDurationMs 120 = 125 := by
  refine ⟨rfl, ?_, by norm_num [App.stepDurationMs]⟩
  intro st hst
  constructor
  · intro h
    unfold App.seqTick
    dsimp only
    rw [hst, if_pos h]
  · intro h
    unfold App.seqTick
    dsimp only
    rw [hst, if_neg h]

/-- Witness for C4: tempo 120, step 0 = note 60, velocity 1, duration 1,
no slide, enabled, reached from index 15. -/
theorem c4_sequencer_tick_witness :
    (App.seqTick 120 (⟨60, 1, 1, false, true⟩ :: List.replicate 15 ⟨0, 0, 0, false, false⟩) 15).1 = 0 ∧
    (App.seqTick 120 (⟨60, 1, 1, false, true⟩ :: List.replicate 15 ⟨0, 0, 0, false, false⟩) 15).2 =
      [App.TickCall.noteOnCall 60 1 0,
       App.TickCall.scheduleNoteOff 60 (App.stepDurationMs 120 * 1 * 0.9)] ∧
    App.stepDurationMs 120 = 125 := by
  have h := c4_sequencer_tick 120
    (⟨60, 1, 1, false, true⟩ :: List.replicate 15 ⟨0, 0, 0, false, false⟩) 15
  refine ⟨by rw [h.1], ?_, h.2.2⟩
  have h2 := (h.2.1 ⟨60, 1, 1, false, true⟩ (by rfl)).1 ⟨rfl, by decide⟩
  rw [h2]
  simp

/-- Claim C5: the Running-to-Stopped transition of the sequencer cancels
the repeating interval, cancels every pending one-shot note-off timeout
the clock created, and invokes the Voice Manager stop-all path (the
stopAllNotes cleanup timer is registered on the synthesizer). -/
theorem c5_stop_cancels_timers (F : Type) (a : App.AppState F) :
    (App.stopSequencer a).seqIntervalActive = false ∧
    (App.stopSequencer a).pendingNoteOffs = [] ∧
    (a.synth.params.release * 1000 + 100, ToneSynth.ToneTimer.stopAllCleanup) ∈
      (App.stopSequencer a).synth.pending := by
  refine ⟨rfl, rfl, ?_⟩
  unfold App.stopSequencer App.stopAllAudio
  dsimp only
  apply app_pending_mem_foldl_noteOff
  simp [ToneSynth.stopAllNotes]

/-- Counterexample to C6 as stated: ToneSynthesizer ignores the slideTime
argument entirely — noteOn with slideTime 0.3 produces exactly the state
produced with slideTime 0, and the new voice frequency is assigned the
target immediately, so no ramp over slideTime occurs. -/
theorem c6_tone_ignores_slide_cex :
    ToneSynth.noteOn (fun k => (k : ℚ)) (ToneSynth.initState ℚ) 60 1 (0.3 : ℚ) =
      ToneSynth.noteOn (fun k => (k : ℚ)) (ToneSynth.initState ℚ) 60 1 0 ∧
    (mapGet (ToneSynth.noteOn (fun k => (k : ℚ)) (ToneSynth.initState ℚ) 60 1 (0.3 : ℚ)).voices 60).map
        (fun vc => vc.synth.frequencyValue) = some 60 :=
  ⟨rfl, by decide⟩

/-- Claim C6 (amended): in WebAudioSynthesizer, noteOn with slideTime > 0
issues a setValueAtTime of the slide source (the highest currently-active
note frequency when the active set is nonempty, else half the target)
followed by a linear ramp to the target at now + slideTime, and with
slideTime = 0 a single immediate setValueAtTime of the target; in
ToneSynthesizer, noteOn ignores velocity and slideTime (any two slideTime
arguments give identical states) and always assigns the target frequency
immediately. -/
theorem c6_slide_behavior :
    (∀ (F : Type) [Field F] (mtf : Nat → F) (s : WebAudio.WAState F)
        (n : Nat) (v sl : ℚ),
        (sl > 0 →
          ∃ o, mapGet (WebAudio.noteOn mtf s n v sl).oscillators n = some o ∧
            o.freqEvents =
              [AudioEvent.setValueAtTime
                 (if s.activeNotes.length > 0 then mtf (s.activeNotes.foldr max 0)
                  else mtf n * (1/2)) s.now,
               AudioEvent.linearRampToValueAtTime (mtf n) (s.now + sl)]) ∧
        (¬ sl > 0 →
          ∃ o, mapGet (WebAudio.noteOn mtf s n v sl).oscillators n = some o ∧
            o.freqEvents = [AudioEvent.setValueAtTime (mtf n) s.now])) ∧
    (∀ (F : Type) [Field F] (mtf : Nat → F) (s : ToneSynth.ToneState F)
        (n : Nat) (v t u : ℚ),
        ToneSynth.noteOn mtf s n v t = ToneSynth.noteOn mtf s n v u ∧
        (∃ vc, mapGet (ToneSynth.noteOn mtf s n v t).voices n = some vc ∧
          vc.synth.frequencyValue = mtf n)) := by
  constructor
  · intro F _ mtf s n v sl
    exact ⟨wa_noteOn_osc_slide mtf s n v sl, wa_noteOn_osc_noslide mtf s n v sl⟩
  · intro F _ mtf s n v t u
    exact ⟨rfl, ⟨_, mapGet_mapSet_self _ _ _, rfl⟩⟩

/-- Witness for C6: a slide from active note 57 to note 60 over 0.3 s, and
an immediate set for slideTime 0, in the WebAudio implementation. -/
theorem c6_slide_behavior_witness :
    (∃ o, mapGet (WebAudio.noteOn (fun k => (k : ℚ))
          (WebAudio.noteOn (fun k => (k : ℚ)) (WebAudio.initState ℚ) 57 1 0) 60 1 (0.3 : ℚ)).oscillators 60 =
        some o ∧
      o.freqEvents = [AudioEvent.setValueAtTime (57 : ℚ) 0,
        AudioEvent.linearRampToValueAtTime 60 (0.3 : ℚ)]) ∧
    (∃ o, mapGet (WebAudio.noteOn (fun k => (k : ℚ)) (WebAudio.initState ℚ) 60 1 0).oscillators 60 =
        some o ∧
      o.freqEvents = [AudioEvent.setValueAtTime (60 : ℚ) 0]) := by
  constructor
  · obtain ⟨o, ho, he⟩ := (c6_slide_behavior.1 ℚ (fun k => (k : ℚ))
        (WebAudio.noteOn (fun k => (k : ℚ)) (WebAudio.initState ℚ) 57 1 0) 60 1 (0.3 : ℚ)).1
        (by norm_num)
    have hA : (WebAudio.noteOn (fun k => (k : ℚ)) (WebAudio.initState ℚ) 57 1 0).activeNotes = [57] := by
      rw [wa_noteOn_activeNotes]
      rfl
    have hN : (WebAudio.noteOn (fun k => (k : ℚ)) (WebAudio.initState ℚ) 57 1 0).now = 0 := by
      rw [wa_noteOn_now]
      rfl
    refine ⟨o, ho, ?_⟩
    rw [he, hA, hN]
    norm_num
  · obtain ⟨o, ho, he⟩ := (c6_slide_behavior.1 ℚ (fun k => (k : ℚ))
        (WebAudio.initState ℚ) 60 1 0).2 (by norm_num)
    refine ⟨o, ho, ?_⟩
    have hN : (WebAudio.initState ℚ).now = 0 := rfl
    rw [he, hN]
    norm_num

/-- Counterexample to C7 as stated: in WebAudioSynthesizer the LFO gain
stored for the voice is lfoAmount * 100 — 20 for lfoAmount 0.2 but 40 for
lfoAmount 0.4 — so the modulation depth scales with lfoAmount and is not
a fixed ±5 percent of the target frequency. -/
theorem c7_webaudio_lfo_depth_scales_cex :
    mapGet (WebAudio.noteOn (fun k => (k : ℚ))
        { WebAudio.initState ℚ with params := { defaultParams with lfoAmount := 0.2 } }
        60 1 0).lfos 60 =
      some { lfoFrequencyValue := 5, lfoGainValue := 20, started := true } ∧
    mapGet (WebAudio.noteOn (fun k => (k : ℚ))
        { WebAudio.initState ℚ with params := { defaultParams with lfoAmount := 0.4 } }
        60 1 0).lfos 60 =
      some { lfoFrequencyValue := 5, lfoGainValue := 40, started := true } := by
  constructor
  · rw [wa_noteOn_lfos_pos _ _ _ _ _ (by norm_num)]
    norm_num [defaultParams]
  · rw [wa_noteOn_lfos_pos _ _ _ _ _ (by norm_num)]
    norm_num [defaultParams]

/-- Claim C7 (amended): in ToneSynthesizer an LFO is attached to the voice
exactly when lfoAmount > 0 and then runs at lfoRate between 0.95 and 1.05
times the target frequency (a fixed ±5 percent depth that lfoAmount does
not scale), while with lfoAmount ≤ 0 the voice stores the unconfigured
default LFO; in WebAudioSynthesizer an LFO is likewise built exactly for
lfoAmount > 0 but its gain is lfoAmount * 100, a depth that scales with
lfoAmount. -/
theorem c7_lfo_gating :
    (∀ (F : Type) [Field F] (mtf : Nat → F) (s : ToneSynth.ToneState F)
        (n : Nat) (v sl : ℚ),
        (s.params.lfoAmount > 0 →
          ∃ vc, mapGet (ToneSynth.noteOn mtf s n v sl).voices n = some vc ∧
            vc.lfo = { isDefault := false
                       frequencyValue := some s.params.lfoRate
                       minValue := some (mtf n * (19/20))
                       maxValue := some (mtf n * (21/20))
                       connectedToFrequency := true
                       started := true
                       stopped := false }) ∧
        (¬ s.params.lfoAmount > 0 →
          ∃ vc, mapGet (ToneSynth.noteOn mtf s n v sl).voices n = some vc ∧
            vc.lfo = { isDefault := true
                       frequencyValue := none
                       minValue := none
                       maxValue := none
                       connectedToFrequency := false
                       started := false
                       stopped := false })) ∧
    (∀ (F : Type) [Field F] (mtf : Nat → F) (s : WebAudio.WAState F)
        (n : Nat) (v sl : ℚ),
        s.params.lfoAmount > 0 →
        mapGet (WebAudio.noteOn mtf s n v sl).lfos n =
          some { lfoFrequencyValue := s.params.lfoRate
                 lfoGainValue := s.params.lfoAmount * 100
                 started := true }) := by
  constructor
  · intro F _ mtf s n v sl
    exact ⟨tone_noteOn_lfo_pos mtf s n v sl, tone_noteOn_lfo_neg mtf s n v sl⟩
  · intro F _ mtf s n v sl hl
    exact wa_noteOn_lfos_pos mtf s n v sl hl

/-- Witness for C7: lfoAmount 0.25 in both implementations at note 60
(Tone LFO spans 57 to 63 = ±5 percent of 60; WebAudio LFO gain 25). -/
theorem c7_lfo_gating_witness :
    (∃ vc, mapGet (ToneSynth.noteOn (fun k => (k : ℚ))
          { ToneSynth.initState ℚ with params := { defaultParams with lfoAmount := 0.25 } }
          60 1 0).voices 60 = some vc ∧
        vc.lfo = { isDefault := false
                   frequencyValue := some 5
                   minValue := some 57
                   maxValue := some 63
                   connectedToFrequency := true
                   started := true
                   stopped := false }) ∧
    mapGet (WebAudio.noteOn (fun k => (k : ℚ))
        { WebAudio.initState ℚ with params := { defaultParams with lfoAmount := 0.25 } }
        60 1 0).lfos 60 =
      some { lfoFrequencyValue := 5, lfoGainValue := 25, started := true } := by
  constructor
  · obtain ⟨vc, hvc, hl⟩ := (c7_lfo_gating.1 ℚ (fun k => (k : ℚ))
        { ToneSynth.initState ℚ with params := { defaultParams with lfoAmount := 0.25 } }
        60 1 0).1 (by norm_num)
    refine ⟨vc, hvc, ?_⟩
    rw [hl]
    norm_num [defaultParams]
  · rw [c7_lfo_gating.2 ℚ (fun k => (k : ℚ))
        { WebAudio.initState ℚ with params := { defaultParams with lfoAmount := 0.25 } }
        60 1 0 (by norm_num)]
    norm_num [defaultParams]

/-- Counterexample to C8 as stated: setSequencerStep is one of the
sequencer's public operations, and at index 16 the JS indexed write grows
the copied array, so the pattern reached from the cleared 16-step pattern
has 17 cells. -/
theorem c8_set_step_grows_pattern_cex :
    (Store.setSequencerStep (Store.clearSequencer Store.initStore) 16
        ⟨60, 1, 1, false, true⟩).sequencerSteps.length = 17 := by
  decide

/-- Claim C8 (amended): clearing the pattern, generating a random pattern,
loading any preset, and setting a step at an index below 16 all leave the
pattern at exactly 16 steps (as does the initial store state); a
setSequencerStep call with index ≥ 16, however, grows the pattern to
index + 1 cells. -/
theorem c8_pattern_length :
    (∀ (s : Store.StoreState) (i : Nat) (n : SequencerNote),
        s.sequencerSteps.length = 16 → i < 16 →
        (Store.setSequencerStep s i n).sequencerSteps.length = 16) ∧
    (∀ s, (Store.clearSequencer s).sequencerSteps.length = 16) ∧
    (∀ draw s, (Store.generateRandomSequence draw s).sequencerSteps.length = 16) ∧
    (∀ p s, (Store.loadPreset s p).sequencerSteps.length = 16) ∧
    Store.initStore.sequencerSteps.length = 16 ∧
    (∀ (s : Store.StoreState) (i : Nat) (n : SequencerNote),
        s.sequencerSteps.length = 16 → 16 ≤ i →
        (Store.setSequencerStep s i n).sequencerSteps.length = i + 1) := by
  refine ⟨?_, ?_, ?_, ?_, ?_, ?_⟩
  · intro s i n hlen hi
    unfold Store.setSequencerStep Store.jsArraySet
    dsimp only
    rw [if_pos (by omega : i < s.sequencerSteps.length)]
    simp [hlen]
  · intro s
    simp [Store.clearSequencer]
  · intro draw s
    simp [Store.generateRandomSequence, Store.generateRandomSequenceSteps]
  · intro p s
    cases p <;> rfl
  · rfl
  · intro s i n hlen hi
    unfold Store.setSequencerStep Store.jsArraySet
    dsimp only
    rw [if_neg (by omega : ¬ i < s.sequencerSteps.length)]
    simp [hlen]
    omega

/-- Witness for C8: an in-range write keeps 16 steps, an out-of-range
write at index 20 grows the pattern to 21 cells. -/
theorem c8_pattern_length_witness :
    (Store.setSequencerStep Store.initStore 0 ⟨60, 1, 1, false, true⟩).sequencerSteps.length = 16 ∧
    (Store.setSequencerStep Store.initStore 20 ⟨60, 1, 1, false, true⟩).sequencerSteps.length = 21 := by
  constructor
  · exact c8_pattern_length.1 Store.initStore 0 ⟨60, 1, 1, false, true⟩ (by decide) (by decide)
  · exact c8_pattern_length.2.2.2.2.2 Store.initStore 20 ⟨60, 1, 1, false, true⟩ (by decide) (by decide)

/-- Claim C10: in WebAudioSynthesizer.noteOn the oscillator is connected
to its filter twice whenever the ring-modulation path is disabled
(ringModAmount ≤ 0 or ≥ 1): once in the no-ring-mod branch and once more
by the later connect guarded by the absent ring oscillator; with ring
modulation enabled the oscillator-to-filter connect happens exactly
once. -/
theorem c10_osc_filter_connection_count :
    ∀ (F : Type) [Field F] (mtf : Nat → F) (s : WebAudio.WAState F)
      (n : Nat) (v sl : ℚ),
      ((s.params.ringModAmount ≤ 0 ∨ 1 ≤ s.params.ringModAmount) →
        ((mapGet (WebAudio.noteOn mtf s n v sl).connLog n).getD []).count
          WebAudio.Conn.oscToFilter = 2) ∧
      (s.params.ringModAmount > 0 ∧ s.params.ringModAmount < 1 →
        ((mapGet (WebAudio.noteOn mtf s n v sl).connLog n).getD []).count
          WebAudio.Conn.oscToFilter = 1) := by
  intro F _ mtf s n v sl
  constructor
  · intro h
    refine wa_connCount_disabled mtf s n v sl ?_
    rcases h with h | h
    · exact fun hc => absurd hc.1 (not_lt.mpr h)
    · exact fun hc => absurd hc.2 (not_lt.mpr h)
  · exact wa_connCount_enabled mtf s n v sl

/-- Witness for C10: default parameters (ringModAmount 0) give two
osc-to-filter connects; ringModAmount 0.6 gives one. -/
theorem c10_osc_filter_connection_count_witness :
    ((mapGet (WebAudio.noteOn (fun k => (k : ℚ)) (WebAudio.initState ℚ) 60 1 0).connLog 60).getD []).count
      WebAudio.Conn.oscToFilter = 2 ∧
    ((mapGet (WebAudio.noteOn (fun k => (k : ℚ))
        { WebAudio.initState ℚ with params := { defaultParams with ringModAmount := 0.6 } }
        60 1 0).connLog 60).getD []).count
      WebAudio.Conn.oscToFilter = 1 :=
  ⟨(c10_osc_filter_connection_count ℚ (fun k => (k : ℚ)) (WebAudio.initState ℚ) 60 1 0).1
      (Or.inl (by norm_num [WebAudio.initState, defaultParams])),
   (c10_osc_filter_connection_count ℚ (fun k => (k : ℚ))
      { WebAudio.initState ℚ with params := { defaultParams with ringModAmount := 0.6 } }
      60 1 0).2 ⟨by norm_num, by norm_num⟩⟩
